import Mathlib

/-!
# Formal model of the `mendel` crate

A shallow embedding of `src/bag.rs` (and the public surface re-exported by
`src/lib.rs`).  The crate provides a population container `Bag<T>` with two
Monte-Carlo estimation operations, `one` and `sample`.

Modelling conventions:

* Randomness is passed explicitly.  `thread_rng().gen_range(0, n)` can return
  any value in `[0, n)` (and aborts when `n = 0`); a trial-indexed oracle
  `Nat → Nat` supplies the choices, reduced modulo the requested bound, so
  every possible random outcome corresponds to some oracle and vice versa.
* A Rust panic (the `gen_range` bound assertion, or `.unwrap()` on an `Err`)
  is modelled by `Option.none` propagating out of the computation.
* The `f64` results of `one`/`sample` are single divisions of a `u32` counter
  by the constant `100_000`; both operands are exactly representable, so the
  value is modelled exactly in `ℚ`.
* Machine integers (`u32`, `usize`) are modelled as `Nat`; the loop counters
  and tallies stay far below `2^32`, and `str::parse::<u32>` overflow is
  modelled explicitly.
-/

namespace Mendel

/-- The compile-time constant `MAX_SIMS: u32 = 100_000` (bag.rs line 8). -/
def MAX_SIMS : Nat := 100000

/-- Largest value representable in Rust's `u32`. -/
def U32_MAX : Nat := 4294967295

/-- Numeric value of an ASCII decimal digit, `none` for anything else. -/
def digitVal (c : Char) : Option Nat :=
  if '0' ≤ c ∧ c ≤ '9' then some (c.toNat - '0'.toNat) else none

/-- Accumulate decimal digits left to right; `none` on the first non-digit. -/
def parseDigitsAux (acc : Nat) : List Char → Option Nat
  | [] => some acc
  | c :: cs =>
    match digitVal c with
    | some d => parseDigitsAux (10 * acc + d) cs
    | none => none

/-- Model of Rust `str::parse::<u32>`: an optional leading `'+'`, then at
least one decimal digit and nothing else; the value must fit in `u32`
(the checked accumulation overflows exactly when the final value would
exceed `U32_MAX`, since the accumulator only grows). -/
def parseU32 (s : String) : Option Nat :=
  let ds :=
    match s.data with
    | '+' :: rest => rest
    | cs => cs
  match ds with
  | [] => none
  | _ :: _ =>
    match parseDigitsAux 0 ds with
    | some n => if n ≤ U32_MAX then some n else none
    | none => none

/-- Model of `get_default_max_sims` (bag.rs lines 16-21).  The ambient
environment is passed explicitly as the optional value of the
`MENDEL_MAX_SIMS` variable; `none` in the result models the `.unwrap()`
panic when the variable is present but fails to parse as a `u32`. -/
def get_default_max_sims (env : Option String) : Option Nat :=
  match env with
  | some val => parseU32 val
  | none => some MAX_SIMS

/-- The `Bag` struct (bag.rs lines 11-14). -/
structure Bag (T : Type) where
  items : List T
  max_sims : Nat
  deriving DecidableEq

/-- Model of `Bag::from_range` (bag.rs lines 38-43): `(min..max).collect()`
over `i32`, then `max_sims` from `get_default_max_sims()`.  The `i32` range
iterator yields `min, min+1, …, max-1` and is empty when `max <= min`. -/
def Bag.from_range (env : Option String) (mn mx : ℤ) : Option (Bag ℤ) :=
  (get_default_max_sims env).map
    (fun ms => ⟨(List.range (mx - mn).toNat).map (fun j : ℕ => mn + (j : ℤ)), ms⟩)

/-- Model of `Bag::from_vec` (bag.rs lines 57-60): the input vector is cloned
verbatim and `max_sims` comes from `get_default_max_sims()`. -/
def Bag.from_vec {T : Type} (env : Option String) (v : List T) : Option (Bag T) :=
  (get_default_max_sims env).map (fun ms => ⟨v, ms⟩)

/-- Model of `Bag::set_max_sims` (bag.rs lines 140-142). -/
def Bag.set_max_sims {T : Type} (b : Bag T) (n : Nat) : Bag T :=
  ⟨b.items, n⟩

/-- Loop state of `Bag::one`: the borrowed bag, the `picks_in_favor`
counter, and the trial index (which also indexes the random oracle). -/
structure OneState (T : Type) where
  bag : Bag T
  counter : Nat
  i : Nat
  deriving DecidableEq

/-- One iteration of the `for` loop in `Bag::one` (bag.rs lines 78-84):
`gen_range(0, items.len())` aborts exactly when the bag is empty (then
`get?` below is `none`), otherwise it yields some index `< items.len()`,
here `oracle s.i % items.len()`; the item is fetched and the predicate
tallied. -/
def oneStep {T : Type} (f : T → Bool) (oracle : Nat → Nat) (s : OneState T) :
    Option (OneState T) :=
  match s.bag.items.get? (oracle s.i % s.bag.items.length) with
  | some item => some ⟨s.bag, s.counter + (if f item then 1 else 0), s.i + 1⟩
  | none => none

/-- The `for _ in 0..self.max_sims` loop of `Bag::one`, with fuel counting
the remaining iterations; a panic in any iteration propagates. -/
def oneLoop {T : Type} (f : T → Bool) (oracle : Nat → Nat) :
    Nat → OneState T → Option (OneState T)
  | 0, s => some s
  | n + 1, s => (oneStep f oracle s).bind (oneLoop f oracle n)

/-- Model of `Bag::one` (bag.rs lines 75-86).  Note the final division is by
the constant `MAX_SIMS`, not by `self.max_sims`, exactly as in the source
(`picks_in_favor as f64 / MAX_SIMS as f64`, line 85). -/
def Bag.one {T : Type} (b : Bag T) (f : T → Bool) (oracle : Nat → Nat) : Option ℚ :=
  (oneLoop f oracle b.max_sims ⟨b, 0, 0⟩).map
    (fun s => (s.counter : ℚ) / (MAX_SIMS : ℚ))

/-- The reservoir update loop of rand 0.4 `seq::sample_iter` (the dependency
invoked at bag.rs line 115): for the `i`-th element `e` past the initial
reservoir, draw `k = gen_range(0, i + 1 + amount)` (the bound is always
positive, so no abort) and overwrite reservoir slot `k` when it exists
(`reservoir.get_mut(k)`); `List.set` is likewise a no-op out of range. -/
def reservoirLoop {α : Type} (amount : Nat) (oracle : Nat → Nat) :
    List α → List α → Nat → List α
  | res, [], _ => res
  | res, e :: rest, i =>
    reservoirLoop amount oracle (res.set (oracle i % (i + 1 + amount)) e) rest (i + 1)

/-- Model of rand 0.4 `seq::sample_iter`: the reservoir starts as the first
`amount` elements; if fewer are available the draw fails with `Err`,
otherwise the reservoir update runs over the remaining elements. -/
def sample_iter {α : Type} (oracle : Nat → Nat) (l : List α) (amount : Nat) :
    Except (List α) (List α) :=
  let reservoir := l.take amount
  if reservoir.length = amount then
    Except.ok (reservoirLoop amount oracle reservoir (l.drop amount) 0)
  else
    Except.error reservoir

/-- Loop state of `Bag::sample`: the borrowed bag, the pre-loop
`items_clone` (bag.rs line 113), the `picks_in_favor` counter and the trial
index. -/
structure SampleState (T : Type) where
  bag : Bag T
  items_clone : List T
  counter : Nat
  i : Nat
  deriving DecidableEq

/-- One iteration of the `for` loop in `Bag::sample` (bag.rs lines 114-118):
draw a sample with `sample_iter` (trial `s.i` uses its own oracle stream),
`.unwrap()` it (`none` models the panic on `Err`), and tally the
predicate. -/
def sampleStep {T : Type} (size : Nat) (f : List T → Bool)
    (oracles : Nat → Nat → Nat) (s : SampleState T) : Option (SampleState T) :=
  match sample_iter (oracles s.i) s.items_clone size with
  | Except.ok drawn =>
      some ⟨s.bag, s.items_clone, s.counter + (if f drawn then 1 else 0), s.i + 1⟩
  | Except.error _ => none

/-- The `for _ in 0..self.max_sims` loop of `Bag::sample`. -/
def sampleLoop {T : Type} (size : Nat) (f : List T → Bool)
    (oracles : Nat → Nat → Nat) : Nat → SampleState T → Option (SampleState T)
  | 0, s => some s
  | n + 1, s => (sampleStep size f oracles s).bind (sampleLoop size f oracles n)

/-- Model of `Bag::sample` (bag.rs lines 108-121).  As in `one`, the final
division is by the constant `MAX_SIMS`, not by `self.max_sims` (line 120). -/
def Bag.sample {T : Type} (b : Bag T) (size : Nat) (f : List T → Bool)
    (oracles : Nat → Nat → Nat) : Option ℚ :=
  (sampleLoop size f oracles b.max_sims ⟨b, b.items, 0, 0⟩).map
    (fun s => (s.counter : ℚ) / (MAX_SIMS : ℚ))

/-! ## Supporting lemmas about the loops -/

/-- A successful `one` iteration only changes the counter and trial index. -/
theorem oneStep_bag {T : Type} (f : T → Bool) (oracle : Nat → Nat)
    (s s' : OneState T) (h : oneStep f oracle s = some s') : s'.bag = s.bag := by
  unfold oneStep at h
  split at h
  · cases h
    rfl
  · simp at h

/-- The `one` loop never changes the borrowed bag. -/
theorem oneLoop_bag {T : Type} (f : T → Bool) (oracle : Nat → Nat) :
    ∀ (n : Nat) (s s' : OneState T), oneLoop f oracle n s = some s' → s'.bag = s.bag := by
  intro n
  induction n with
  | zero =>
    intro s s' h
    simp only [oneLoop] at h
    cases h
    rfl
  | succ n ih =>
    intro s s' h
    simp only [oneLoop] at h
    rcases Option.bind_eq_some.mp h with ⟨s₁, h₁, h₂⟩
    rw [ih s₁ s' h₂, oneStep_bag f oracle s s₁ h₁]

/-- On a non-empty list the modelled `gen_range` index always hits an item. -/
theorem get?_mod_isSome {T : Type} (l : List T) (h : l ≠ []) (v : Nat) :
    ∃ t, l.get? (v % l.length) = some t := by
  have hpos : 0 < l.length := List.length_pos.mpr h
  exact ⟨l.get ⟨v % l.length, Nat.mod_lt v hpos⟩, List.get?_eq_get (Nat.mod_lt v hpos)⟩

/-- With a predicate that always holds and a non-empty bag, each `one`
iteration increments the counter. -/
theorem oneStep_true {T : Type} (f : T → Bool) (hf : ∀ t, f t = true)
    (oracle : Nat → Nat) (b : Bag T) (c i : Nat) (hne : b.items ≠ []) :
    oneStep f oracle ⟨b, c, i⟩ = some ⟨b, c + 1, i + 1⟩ := by
  obtain ⟨t, ht⟩ := get?_mod_isSome b.items hne (oracle i)
  rw [List.get?_eq_getElem?] at ht
  unfold oneStep
  simp [ht, hf t]

/-- With a predicate that always holds and a non-empty bag, `n` iterations
of the `one` loop add exactly `n` to the counter. -/
theorem oneLoop_true {T : Type} (f : T → Bool) (hf : ∀ t, f t = true)
    (oracle : Nat → Nat) (b : Bag T) (hne : b.items ≠ []) :
    ∀ (n c i : Nat), oneLoop f oracle n ⟨b, c, i⟩ = some ⟨b, c + n, i + n⟩ := by
  intro n
  induction n with
  | zero =>
    intro c i
    simp [oneLoop]
  | succ n ih =>
    intro c i
    simp only [oneLoop]
    rw [oneStep_true f hf oracle b c i hne]
    have h1 : c + 1 + n = c + (n + 1) := by omega
    have h2 : i + 1 + n = i + (n + 1) := by omega
    rw [Option.some_bind, ih (c + 1) (i + 1), h1, h2]

/-- On an empty bag, any positive number of `one` iterations aborts (the
`gen_range(0, 0)` panic). -/
theorem oneLoop_empty {T : Type} (f : T → Bool) (oracle : Nat → Nat)
    (s : OneState T) (he : s.bag.items = []) (n : Nat) (hn : 0 < n) :
    oneLoop f oracle n s = none := by
  obtain ⟨m, rfl⟩ : ∃ m, n = m + 1 := ⟨n - 1, by omega⟩
  have hstep : oneStep f oracle s = none := by
    unfold oneStep
    simp [he]
  simp [oneLoop, hstep]

/-- `sample_iter` succeeds whenever enough elements are available. -/
theorem sample_iter_ok {α : Type} (o : Nat → Nat) (l : List α) (k : Nat)
    (h : k ≤ l.length) :
    sample_iter o l k = Except.ok (reservoirLoop k o (l.take k) (l.drop k) 0) := by
  unfold sample_iter
  rw [if_pos]
  simp only [List.length_take]
  omega

/-- `sample_iter` fails exactly on a too-large request. -/
theorem sample_iter_err {α : Type} (o : Nat → Nat) (l : List α) (k : Nat)
    (h : l.length < k) : sample_iter o l k = Except.error (l.take k) := by
  unfold sample_iter
  rw [if_neg]
  simp only [List.length_take]
  omega

/-- A successful `sample_iter` implies the request fitted the population. -/
theorem sample_iter_ok_le {α : Type} {o : Nat → Nat} {l : List α} {k : Nat}
    {s : List α} (h : sample_iter o l k = Except.ok s) : k ≤ l.length := by
  by_contra hlt
  push_neg at hlt
  rw [sample_iter_err o l k hlt] at h
  exact Except.noConfusion h

/-- A `sample` iteration with a satisfiable draw succeeds. -/
theorem sampleStep_ok {T : Type} (size : Nat) (f : List T → Bool)
    (oracles : Nat → Nat → Nat) (s : SampleState T)
    (h : size ≤ s.items_clone.length) :
    sampleStep size f oracles s =
      some ⟨s.bag, s.items_clone,
        s.counter + (if f (reservoirLoop size (oracles s.i)
          (s.items_clone.take size) (s.items_clone.drop size) 0) then 1 else 0),
        s.i + 1⟩ := by
  unfold sampleStep
  rw [sample_iter_ok _ _ _ h]

/-- A `sample` iteration with an oversized draw aborts (`.unwrap()` on `Err`). -/
theorem sampleStep_err {T : Type} (size : Nat) (f : List T → Bool)
    (oracles : Nat → Nat → Nat) (s : SampleState T)
    (h : s.items_clone.length < size) : sampleStep size f oracles s = none := by
  unfold sampleStep
  rw [sample_iter_err _ _ _ h]

/-- The `sample` loop runs to completion when the draw size fits. -/
theorem sampleLoop_ok {T : Type} (size : Nat) (f : List T → Bool)
    (oracles : Nat → Nat → Nat) :
    ∀ (n : Nat) (s : SampleState T), size ≤ s.items_clone.length →
      ∃ s', sampleLoop size f oracles n s = some s' := by
  intro n
  induction n with
  | zero =>
    intro s _
    exact ⟨s, rfl⟩
  | succ n ih =>
    intro s h
    simp only [sampleLoop]
    rw [sampleStep_ok size f oracles s h, Option.some_bind]
    exact ih _ h

/-- The `sample` loop aborts on its first iteration when the draw size is
too large. -/
theorem sampleLoop_err {T : Type} (size : Nat) (f : List T → Bool)
    (oracles : Nat → Nat → Nat) (s : SampleState T)
    (h : s.items_clone.length < size) (n : Nat) (hn : 0 < n) :
    sampleLoop size f oracles n s = none := by
  obtain ⟨m, rfl⟩ : ∃ m, n = m + 1 := ⟨n - 1, by omega⟩
  simp [sampleLoop, sampleStep_err size f oracles s h]

/-- A successful `sample` iteration changes neither the borrowed bag nor
the cloned population. -/
theorem sampleStep_frame {T : Type} (size : Nat) (f : List T → Bool)
    (oracles : Nat → Nat → Nat) (s s' : SampleState T)
    (h : sampleStep size f oracles s = some s') :
    s'.bag = s.bag ∧ s'.items_clone = s.items_clone := by
  unfold sampleStep at h
  split at h
  · cases h
    exact ⟨rfl, rfl⟩
  · simp at h

/-- The `sample` loop changes neither the borrowed bag nor the cloned
population. -/
theorem sampleLoop_frame {T : Type} (size : Nat) (f : List T → Bool)
    (oracles : Nat → Nat → Nat) :
    ∀ (n : Nat) (s s' : SampleState T), sampleLoop size f oracles n s = some s' →
      s'.bag = s.bag ∧ s'.items_clone = s.items_clone := by
  intro n
  induction n with
  | zero =>
    intro s s' h
    simp only [sampleLoop] at h
    cases h
    exact ⟨rfl, rfl⟩
  | succ n ih =>
    intro s s' h
    simp only [sampleLoop] at h
    rcases Option.bind_eq_some.mp h with ⟨s₁, h₁, h₂⟩
    rcases ih s₁ s' h₂ with ⟨hb, hc⟩
    rcases sampleStep_frame size f oracles s s₁ h₁ with ⟨hb₁, hc₁⟩
    exact ⟨hb.trans hb₁, hc.trans hc₁⟩

/-! ## Distinctness of a reservoir draw -/

/-- The reservoir update commutes with mapping a function over both the
reservoir and the remaining elements. -/
theorem reservoirLoop_map {α β : Type} (f : α → β) (amount : Nat)
    (o : Nat → Nat) :
    ∀ (rest res : List α) (i : Nat),
      reservoirLoop amount o (res.map f) (rest.map f) i =
        (reservoirLoop amount o res rest i).map f := by
  intro rest
  induction rest with
  | nil =>
    intro res i
    rfl
  | cons e rest ih =>
    intro res i
    simp only [List.map_cons, reservoirLoop]
    rw [← List.map_set, ih]

/-- The reservoir update preserves the reservoir's length. -/
theorem reservoirLoop_length {α : Type} (amount : Nat) (o : Nat → Nat) :
    ∀ (rest res : List α) (i : Nat),
      (reservoirLoop amount o res rest i).length = res.length := by
  intro rest
  induction rest with
  | nil =>
    intro res i
    rfl
  | cons e rest ih =>
    intro res i
    simp only [reservoirLoop]
    rw [ih, List.length_set]

/-- Overwriting one slot with a fresh element keeps a list duplicate-free. -/
theorem nodup_set {α : Type} :
    ∀ (l : List α) (k : Nat) (e : α), l.Nodup → e ∉ l → (l.set k e).Nodup := by
  intro l
  induction l with
  | nil =>
    intro k e _ _
    simp
  | cons x xs ih =>
    intro k e h he
    rw [List.nodup_cons] at h
    cases k with
    | zero =>
      simp only [List.set]
      rw [List.nodup_cons]
      exact ⟨fun hm => he (List.mem_cons_of_mem x hm), h.2⟩
    | succ k =>
      simp only [List.set]
      rw [List.nodup_cons]
      refine ⟨?_, ih k e h.2 (fun hm => he (List.mem_cons_of_mem x hm))⟩
      intro hx
      rcases List.mem_or_eq_of_mem_set hx with hx | rfl
      · exact h.1 hx
      · exact he (List.mem_cons_self x xs)

/-- The reservoir update keeps the reservoir duplicate-free as long as the
incoming elements are duplicate-free and disjoint from it. -/
theorem reservoirLoop_nodup {α : Type} (amount : Nat) (o : Nat → Nat) :
    ∀ (rest res : List α) (i : Nat), res.Nodup → rest.Nodup →
      (∀ x ∈ res, x ∉ rest) → (reservoirLoop amount o res rest i).Nodup := by
  intro rest
  induction rest with
  | nil =>
    intro res i h _ _
    exact h
  | cons e rest ih =>
    intro res i hres hrest hdis
    rw [List.nodup_cons] at hrest
    simp only [reservoirLoop]
    apply ih
    · exact nodup_set res _ e hres (fun hm => hdis e hm (List.mem_cons_self e rest))
    · exact hrest.2
    · intro x hx hxr
      rcases List.mem_or_eq_of_mem_set hx with hx | rfl
      · exact hdis x hx (List.mem_cons_of_mem e hxr)
      · exact hrest.1 hxr

/-! ## Claims -/

/-- C1: the claim says `one` and `sample` return the success counter divided
by the configured budget `max_sims`.  The code divides by the compile-time
constant `MAX_SIMS = 100_000` instead (bag.rs lines 85 and 120), so with a
bag configured to `max_sims = 2` and an always-true predicate, `one` returns
`2 / 100000`, not `2 / 2 = 1`. -/
theorem one_division_uses_constant_budget :
    Bag.one (⟨[0], 2⟩ : Bag Nat) (fun _ => true) (fun _ => 0) = some (2 / 100000 : ℚ) ∧
    (2 / 100000 : ℚ) ≠ 2 / 2 := by
  constructor
  · have h : oneLoop (fun _ : Nat => true) (fun _ => 0) 2 ⟨⟨[0], 2⟩, 0, 0⟩ =
        some ⟨⟨[0], 2⟩, 2, 2⟩ := by decide
    simp only [Bag.one, h, Option.map_some]
    norm_num [MAX_SIMS]
  · norm_num

/-- C2: the claim says `one` always returns a value in `[0, 1]` for every
positive `max_sims`.  Because the division is by the constant `100_000`
rather than by `max_sims`, a bag configured to `max_sims = 200_000` with an
always-true predicate yields `200000 / 100000 = 2 > 1`. -/
theorem one_result_can_exceed_one :
    Bag.one (⟨[0], 200000⟩ : Bag Nat) (fun _ => true) (fun _ => 0) = some 2 ∧
    ¬((2 : ℚ) ≤ 1) := by
  constructor
  · have h := oneLoop_true (fun _ : Nat => true) (fun _ => rfl) (fun _ => 0)
      ⟨[0], 200000⟩ (by decide) 200000 0 0
    simp only [Nat.zero_add] at h
    simp only [Bag.one, h, Option.map_some]
    norm_num [MAX_SIMS]
  · norm_num

/-- C3 (counterexample): the claim says every estimation call on an empty
bag fails with an `EmptyPopulation` error.  `sample(0, p)` on an empty bag
succeeds: the reservoir draw of zero elements returns `Ok([])` every trial,
so the call returns a value instead of failing. -/
theorem empty_bag_sample_zero_succeeds :
    Bag.sample (⟨[], 1⟩ : Bag Nat) 0 (fun _ => true) (fun _ _ => 0) =
      some (1 / 100000 : ℚ) := by
  have h : sampleLoop 0 (fun _ : List Nat => true) (fun _ _ => 0) 1
      ⟨⟨[], 1⟩, [], 0, 0⟩ = some ⟨⟨[], 1⟩, [], 1, 1⟩ := by decide
  simp only [Bag.sample, h, Option.map_some]
  norm_num [MAX_SIMS]

/-- C3 (amended): on a bag with empty `items` and positive `max_sims`,
`one` aborts with a panic (the `gen_range(0, 0)` assertion) and `sample`
with positive `sample_size` aborts with a panic (`.unwrap()` of `Err`);
no error value is returned to the caller.  `sample` with `sample_size = 0`
succeeds, evaluating the predicate on the empty draw. -/
theorem empty_bag_estimation_behavior {T : Type} (b : Bag T) (f : T → Bool)
    (g : List T → Bool) (oracle : Nat → Nat) (oracles : Nat → Nat → Nat)
    (he : b.items = []) (hms : 0 < b.max_sims) :
    Bag.one b f oracle = none ∧
    (∀ k, 0 < k → Bag.sample b k g oracles = none) ∧
    (∃ q, Bag.sample b 0 g oracles = some q) := by
  refine ⟨?_, ?_, ?_⟩
  · unfold Bag.one
    rw [oneLoop_empty f oracle ⟨b, 0, 0⟩ he b.max_sims hms]
    rfl
  · intro k hk
    unfold Bag.sample
    rw [sampleLoop_err k g oracles ⟨b, b.items, 0, 0⟩ (by simpa [he] using hk)
      b.max_sims hms]
    rfl
  · obtain ⟨s', hs'⟩ := sampleLoop_ok 0 g oracles b.max_sims ⟨b, b.items, 0, 0⟩
      (Nat.zero_le _)
    refine ⟨(s'.counter : ℚ) / (MAX_SIMS : ℚ), ?_⟩
    unfold Bag.sample
    rw [hs']
    rfl

/-- Witness for `empty_bag_estimation_behavior` at the empty `Nat` bag with
`max_sims = 1`. -/
theorem empty_bag_estimation_behavior_witness :
    Bag.one (⟨[], 1⟩ : Bag Nat) (fun _ => true) (fun _ => 0) = none :=
  (empty_bag_estimation_behavior (⟨[], 1⟩ : Bag Nat) (fun _ => true)
    (fun _ => true) (fun _ => 0) (fun _ _ => 0) rfl (by decide)).1

/-- C4 (counterexample): the claim says `sample(0, p)` fails with
`InvalidSampleSize`.  It succeeds: every trial draws the empty sample and
the call returns a value. -/
theorem sample_size_zero_succeeds :
    Bag.sample (⟨[1, 2, 3], 1⟩ : Bag Nat) 0 (fun _ => true) (fun _ _ => 0) =
      some (1 / 100000 : ℚ) := by
  have h : sampleLoop 0 (fun _ : List Nat => true) (fun _ _ => 0) 1
      ⟨⟨[1, 2, 3], 1⟩, [1, 2, 3], 0, 0⟩ = some ⟨⟨[1, 2, 3], 1⟩, [1, 2, 3], 1, 1⟩ := by
    decide
  simp only [Bag.sample, h, Option.map_some]
  norm_num [MAX_SIMS]

/-- C4 (amended): for a non-empty bag with positive `max_sims`, `sample`
fails — by panic, not by an `InvalidSampleSize` error value — exactly when
`sample_size > len(items)`; in particular `sample_size = 0` is accepted. -/
theorem sample_failure_iff_oversize {T : Type} (b : Bag T) (k : Nat)
    (f : List T → Bool) (oracles : Nat → Nat → Nat)
    (hne : b.items ≠ []) (hms : 0 < b.max_sims) :
    Bag.sample b k f oracles = none ↔ b.items.length < k := by
  constructor
  · intro h
    by_contra hlt
    push_neg at hlt
    obtain ⟨s', hs'⟩ := sampleLoop_ok k f oracles b.max_sims ⟨b, b.items, 0, 0⟩ hlt
    unfold Bag.sample at h
    rw [hs'] at h
    simp at h
  · intro h
    unfold Bag.sample
    rw [sampleLoop_err k f oracles ⟨b, b.items, 0, 0⟩ h b.max_sims hms]
    rfl

/-- Witness for `sample_failure_iff_oversize`: a two-item bag asked for a
three-item sample fails; the hypotheses hold at this input. -/
theorem sample_failure_iff_oversize_witness :
    (([1, 2] : List Nat) ≠ [] ∧ 0 < 1) ∧
    (Bag.sample (⟨[1, 2], 1⟩ : Bag Nat) 3 (fun _ => true) (fun _ _ => 0) = none ↔
      (⟨[1, 2], 1⟩ : Bag Nat).items.length < 3) := by
  refine ⟨⟨by decide, by decide⟩, ?_⟩
  exact sample_failure_iff_oversize (⟨[1, 2], 1⟩ : Bag Nat) 3 (fun _ => true)
    (fun _ _ => 0) (by decide) (by decide)

/-- C5 (counterexample): the claim says an override value that does not
parse as a positive integer is a fatal configuration error.  The override
string `"0"` does not denote a positive integer, yet it parses as a `u32`
and is silently accepted, producing a bag with `max_sims = 0`. -/
theorem zero_override_accepted :
    get_default_max_sims (some ("0")) = some 0 ∧
    Bag.from_vec (some ("0")) ([1] : List Nat) = some ⟨[1], 0⟩ := by
  exact ⟨by decide, by decide⟩

/-- C5 (amended): without an override, construction sets
`max_sims = 100_000`; a present `MENDEL_MAX_SIMS` override must parse as a
`u32` (non-negative, at most `4294967295`), and a value that does not parse
aborts construction (`.unwrap()` panic) rather than being ignored — but
positivity is not checked, so `"0"` is accepted and yields `max_sims = 0`. -/
theorem max_sims_configuration_policy :
    get_default_max_sims none = some MAX_SIMS ∧
    MAX_SIMS = 100000 ∧
    (∀ s, get_default_max_sims (some s) = parseU32 s) ∧
    (∀ (v : List Nat) (s : String),
      Bag.from_vec (some s) v = (parseU32 s).map (fun ms => ⟨v, ms⟩)) ∧
    (∀ mn mx : ℤ, Bag.from_range (some ("not a number")) mn mx = none) ∧
    (∀ v : List Nat, Bag.from_vec (some ("not a number")) v = none) ∧
    parseU32 ("") = none ∧
    parseU32 ("abc") = none ∧
    parseU32 ("-5") = none ∧
    parseU32 ("4294967296") = none ∧
    parseU32 ("12x") = none ∧
    parseU32 ("100000") = some 100000 ∧
    parseU32 ("+42") = some 42 ∧
    parseU32 ("0") = some 0 := by
  have hg : get_default_max_sims (some ("not a number")) = none := by decide
  refine ⟨rfl, rfl, fun s => rfl, fun v s => rfl, fun mn mx => ?_, fun v => ?_,
    by decide, by decide, by decide, by decide, by decide, by decide, by decide,
    by decide⟩
  · unfold Bag.from_range
    rw [hg]
    rfl
  · unfold Bag.from_vec
    rw [hg]
    rfl

/-- C6: the claim says `sample(len(items), always_true)` returns exactly
`1.0` for any configured positive `max_sims`.  Because the code divides by
the constant `100_000` instead of `max_sims`, a single-item bag with
`max_sims = 1` returns `1 / 100000`, not `1`. -/
theorem sample_full_population_below_one :
    Bag.sample (⟨[0], 1⟩ : Bag Nat) 1 (fun _ => true) (fun _ _ => 0) =
      some (1 / 100000 : ℚ) ∧ (1 / 100000 : ℚ) ≠ 1 := by
  constructor
  · have h : sampleLoop 1 (fun _ : List Nat => true) (fun _ _ => 0) 1
        ⟨⟨[0], 1⟩, [0], 0, 0⟩ = some ⟨⟨[0], 1⟩, [0], 1, 1⟩ := by decide
    simp only [Bag.sample, h, Option.map_some]
    norm_num [MAX_SIMS]
  · norm_num

/-- C7: within a single trial, the drawn sample is taken without
replacement: every successful `sample_iter` draw (the per-trial draw used by
`sampleStep`) equals the image of a duplicate-free list of in-range item
positions, so the predicate receives `sample_size` items from distinct
indices of the population. -/
theorem sample_iter_without_replacement {T : Type} (l : List T) (k : Nat)
    (o : Nat → Nat) (s : List T) (h : sample_iter o l k = Except.ok s) :
    ∃ idxs : List (Fin l.length), idxs.Nodup ∧ idxs.length = k ∧
      s = idxs.map l.get := by
  have hk : k ≤ l.length := sample_iter_ok_le h
  refine ⟨reservoirLoop k o ((List.finRange l.length).take k)
    ((List.finRange l.length).drop k) 0, ?_, ?_, ?_⟩
  · exact reservoirLoop_nodup k o _ _ 0
      ((List.nodup_finRange _).sublist (List.take_sublist _ _))
      ((List.nodup_finRange _).sublist (List.drop_sublist _ _))
      (fun x hx =>
        List.disjoint_take_drop (List.nodup_finRange _) (Nat.le_refl k) hx)
  · rw [reservoirLoop_length, List.length_take, List.length_finRange,
      Nat.min_eq_left hk]
  · rw [sample_iter_ok o l k hk] at h
    have hs : reservoirLoop k o (l.take k) (l.drop k) 0 = s := by
      simpa using h
    rw [← hs, ← reservoirLoop_map l.get k o, List.map_take, List.map_drop,
      List.finRange_map_get]

/-- Witness for `sample_iter_without_replacement`: drawing one element from
a two-element population. -/
theorem sample_iter_without_replacement_witness :
    ∃ idxs : List (Fin ([10, 20] : List Nat).length),
      idxs.Nodup ∧ idxs.length = 1 ∧ [20] = idxs.map ([10, 20] : List Nat).get :=
  sample_iter_without_replacement ([10, 20] : List Nat) 1 (fun _ => 0) [20] rfl

/-- C8: for `min < max`, `from_range(min, max)` builds a bag whose items
are exactly the integers `min, min+1, …, max-1` in ascending order: the
length is `max - min`, the `j`-th item is `min + j`, and membership is
exactly the half-open interval `[min, max)`. -/
theorem from_range_enumerates_interval {env : Option String} {mn mx : ℤ}
    {b : Bag ℤ} (hlt : mn < mx) (hb : Bag.from_range env mn mx = some b) :
    b.items.length = (mx - mn).toNat ∧
    (∀ j : Nat, j < b.items.length → b.items.get? j = some (mn + j)) ∧
    (∀ x : ℤ, x ∈ b.items ↔ mn ≤ x ∧ x < mx) := by
  unfold Bag.from_range at hb
  rcases Option.map_eq_some'.mp hb with ⟨ms, hms, hbe⟩
  have hitems : b.items =
      (List.range (mx - mn).toNat).map (fun j : ℕ => mn + (j : ℤ)) := by
    rw [← hbe]
  simp only [hitems]
  refine ⟨by simp, ?_, ?_⟩
  · intro j hj
    simp only [List.length_map, List.length_range] at hj
    rw [List.get?_map, List.get?_eq_getElem?, List.getElem?_range hj]
    rfl
  · intro x
    simp only [List.mem_map, List.mem_range]
    constructor
    · rintro ⟨j, hj, rfl⟩
      omega
    · rintro ⟨h1, h2⟩
      exact ⟨(x - mn).toNat, by omega, by omega⟩

/-- Witness for `from_range_enumerates_interval` at `from_range(1, 4)`,
whose bag is `⟨[1, 2, 3], 100000⟩`. -/
theorem from_range_enumerates_interval_witness :
    (1 : ℤ) < 4 ∧
    (([1, 2, 3] : List ℤ).length = ((4 : ℤ) - 1).toNat ∧
     (∀ j : Nat, j < ([1, 2, 3] : List ℤ).length →
        ([1, 2, 3] : List ℤ).get? j = some (1 + j)) ∧
     (∀ x : ℤ, x ∈ ([1, 2, 3] : List ℤ) ↔ 1 ≤ x ∧ x < 4)) :=
  ⟨by decide,
   @from_range_enumerates_interval none 1 4 ⟨[1, 2, 3], 100000⟩ (by decide) (by decide)⟩

/-- C9: the estimation loops of `one` and `sample` never change the
borrowed bag: any successful run leaves both `items` and `max_sims` (and
`sample`'s cloned population) exactly as they started; only the local
counter and trial index move. -/
theorem estimation_preserves_bag {T : Type} (f : T → Bool)
    (g : List T → Bool) (oracle : Nat → Nat) (oracles : Nat → Nat → Nat)
    (size : Nat) :
    (∀ (n : Nat) (s s' : OneState T),
      oneLoop f oracle n s = some s' → s'.bag = s.bag) ∧
    (∀ (n : Nat) (s s' : SampleState T),
      sampleLoop size g oracles n s = some s' →
        s'.bag = s.bag ∧ s'.items_clone = s.items_clone) :=
  ⟨fun n s s' h => oneLoop_bag f oracle n s s' h,
   fun n s s' h => sampleLoop_frame size g oracles n s s' h⟩

/-- Witness for `estimation_preserves_bag`: one completed `one` iteration
on a singleton bag ends with the bag it started with. -/
theorem estimation_preserves_bag_witness :
    oneLoop (fun _ : Nat => true) (fun _ => 0) 1 ⟨⟨[5], 1⟩, 0, 0⟩ =
      some ⟨⟨[5], 1⟩, 1, 1⟩ ∧
    (⟨⟨[5], 1⟩, 1, 1⟩ : OneState Nat).bag = ⟨[5], 1⟩ := by
  refine ⟨by decide, ?_⟩
  exact (estimation_preserves_bag (fun _ : Nat => true) (fun _ => true)
    (fun _ => 0) (fun _ _ => 0) 1).1 1 ⟨⟨[5], 1⟩, 0, 0⟩ ⟨⟨[5], 1⟩, 1, 1⟩ (by decide)

/-- C10: for `max ≤ min`, `from_range(min, max)` signals no range error:
it succeeds (whenever the configuration resolves, in particular with no
override) and returns a bag with empty items — the empty-bag policy. -/
theorem from_range_inverted_gives_empty {mn mx : ℤ} (h : mx ≤ mn) :
    Bag.from_range none mn mx = some ⟨[], MAX_SIMS⟩ ∧
    ∀ env, Bag.from_range env mn mx =
      (get_default_max_sims env).map (fun ms => ⟨[], ms⟩) := by
  have h0 : (mx - mn).toNat = 0 := by omega
  have hitems : (List.range (mx - mn).toNat).map (fun j : ℕ => mn + (j : ℤ)) = [] := by
    rw [h0]
    rfl
  constructor
  · unfold Bag.from_range
    simp only [hitems]
    rfl
  · intro env
    unfold Bag.from_range
    simp only [hitems]

/-- Witness for `from_range_inverted_gives_empty` at `from_range(3, 1)`. -/
theorem from_range_inverted_gives_empty_witness :
    Bag.from_range none 3 1 = some ⟨[], MAX_SIMS⟩ :=
  (from_range_inverted_gives_empty (by decide)).1

end Mendel
